import Mathlib

/-!
Verification of the nevergrad benchmark-function catalog
(src/nevergrad/functions/corefuncs.py) against its specification.

Conventions of the embedding:
- vectors (numpy 1-d arrays) become lists over the exact reals;
- the discrete cores, whose Python signature is List[int], become
  functions over lists of integers (int(round(w)) is the identity there);
- Python float("inf") results are modelled in EReal;
- the IEEE-754 behaviour that the claim about NaN needs is modelled by a
  small value type FpVal with finite, infinite and NaN constructors,
  mirroring numpy semantics of division by zero and cos at infinity.
-/

namespace Corefuncs

/-- Embedding of _onemax: len(x) minus the number of coordinates whose
rounded value equals 1 (the inputs are integer-coded, so rounding is the
identity). -/
def _onemax (x : List ℤ) : ℕ :=
  x.length - x.count 1

/-- Index of the first coordinate different from 1, mirroring the loop of
_leadingones. -/
def firstNonOne : List ℤ → Option ℕ
  | [] => none
  | w :: rest => if w = 1 then (firstNonOne rest).map (· + 1) else some 0

/-- Embedding of _leadingones: at the first coordinate different from 1,
at index i, the loop returns len(x) - i; if all coordinates equal 1 it
returns 0. -/
def _leadingones (x : List ℤ) : ℕ :=
  match firstNonOne x with
  | some i => x.length - i
  | none => 0

/-- Model of an IEEE-754 double as used by numpy: a finite real, one of
the two infinities, or NaN. Negative zero is identified with zero, which
is sound for the computations modelled here since none of them
distinguishes the two. -/
inductive FpVal where
  | fin (r : ℝ) : FpVal
  | inf : FpVal
  | ninf : FpVal
  | nan : FpVal

/-- Model of the numpy expression 1.0 / x on a scalar: division by zero
yields positive infinity (numpy emits a warning, not an error). -/
noncomputable def fpOneDiv (r : ℝ) : FpVal :=
  if r = 0 then FpVal.inf else FpVal.fin (1 / r)

/-- Model of np.cos on a double: cos of an infinity or of NaN is NaN. -/
noncomputable def fpCos : FpVal → FpVal
  | FpVal.fin r => FpVal.fin (Real.cos r)
  | FpVal.inf => FpVal.nan
  | FpVal.ninf => FpVal.nan
  | FpVal.nan => FpVal.nan

/-- Model of IEEE-754 addition: NaN propagates, opposite infinities give
NaN, an infinity absorbs finite summands. -/
noncomputable def fpAdd : FpVal → FpVal → FpVal
  | FpVal.nan, _ => FpVal.nan
  | _, FpVal.nan => FpVal.nan
  | FpVal.inf, FpVal.ninf => FpVal.nan
  | FpVal.ninf, FpVal.inf => FpVal.nan
  | FpVal.inf, _ => FpVal.inf
  | _, FpVal.inf => FpVal.inf
  | FpVal.ninf, _ => FpVal.ninf
  | _, FpVal.ninf => FpVal.ninf
  | FpVal.fin a, FpVal.fin b => FpVal.fin (a + b)

/-- Model of IEEE-754 multiplication: NaN propagates, zero times an
infinity is NaN, otherwise an infinity keeps the sign of the product. -/
noncomputable def fpMul : FpVal → FpVal → FpVal
  | FpVal.nan, _ => FpVal.nan
  | _, FpVal.nan => FpVal.nan
  | FpVal.fin a, FpVal.inf =>
      if a = 0 then FpVal.nan else if 0 < a then FpVal.inf else FpVal.ninf
  | FpVal.fin a, FpVal.ninf =>
      if a = 0 then FpVal.nan else if 0 < a then FpVal.ninf else FpVal.inf
  | FpVal.inf, FpVal.fin b =>
      if b = 0 then FpVal.nan else if 0 < b then FpVal.inf else FpVal.ninf
  | FpVal.ninf, FpVal.fin b =>
      if b = 0 then FpVal.nan else if 0 < b then FpVal.ninf else FpVal.inf
  | FpVal.inf, FpVal.inf => FpVal.inf
  | FpVal.inf, FpVal.ninf => FpVal.ninf
  | FpVal.ninf, FpVal.inf => FpVal.ninf
  | FpVal.ninf, FpVal.ninf => FpVal.inf
  | FpVal.fin a, FpVal.fin b => FpVal.fin (a * b)

/-- Embedding of hm with floating-point effects tracked: the dot product
of x ** 2 with 1.1 + np.cos(1.0 / x), computed coordinatewise and summed.
At a zero coordinate, 1.0 / x is infinite and its cosine is NaN. -/
noncomputable def hm (x : List ℝ) : FpVal :=
  (x.map (fun xi =>
      fpMul (FpVal.fin (xi ^ 2)) (fpAdd (FpVal.fin 1.1) (fpCos (fpOneDiv xi))))).foldr
    fpAdd (FpVal.fin 0)

/-- Formula of the claim about _onemax, following the words of the claim:
len(x) minus the number of coordinates NOT equal to 1. Kept separate from
the embedding for the refinement comparison. -/
def onemaxClaim (x : List ℤ) : ℕ :=
  x.length - x.countP (fun w => w ≠ 1)

/-- Embedding of sphere: the dot product of x with itself, the sum of the
squared coordinates. -/
def sphere (x : List ℝ) : ℝ :=
  (x.map (fun w => w ^ 2)).sum

/-- Embedding of sphere1: sphere applied to x - 1.0 (coordinatewise). -/
def sphere1 (x : List ℝ) : ℝ :=
  sphere (x.map (fun w => w - 1))

/-- Embedding of sphere2: sphere applied to x - 2.0 (coordinatewise). -/
def sphere2 (x : List ℝ) : ℝ :=
  sphere (x.map (fun w => w - 2))

/-- Embedding of sphere4: sphere applied to x - 4.0 (coordinatewise). -/
def sphere4 (x : List ℝ) : ℝ :=
  sphere (x.map (fun w => w - 4))

/-- Embedding of cigar: float(x[0]) ** 2 + 1000000.0 * sphere(x[1:]). -/
def cigar (x : List ℝ) : ℝ :=
  x.headI ^ 2 + 1000000 * sphere x.tail

/-- Embedding of altcigar: float(x[-1]) ** 2 + 1000000.0 * sphere(x[:-1]). -/
def altcigar (x : List ℝ) : ℝ :=
  x.getLastD 0 ^ 2 + 1000000 * sphere x.dropLast

/-- Formula of the claim about cigar, following the words of the claim:
the distinguished first axis squared scaled by 10 ^ 6, plus the sphere of
the remaining coordinates. Kept separate from the embedding for the
refinement comparison. -/
def cigarClaim (x : List ℝ) : ℝ :=
  1000000 * x.headI ^ 2 + sphere x.tail

/-- Embedding of ellipsoid: the per-axis weights are
10 ** np.linspace(0, 6, dim), so axis i carries weight
10 ^ (6 * i / (dim - 1)); the result is the weighted sum of squares. For
dim = 1 numpy linspace(0, 6, 1) returns the start point 0, matched here
by the convention 0 / 0 = 0 of real division. -/
noncomputable def ellipsoid (x : List ℝ) : ℝ :=
  ∑ i ∈ Finset.range x.length,
    (10 : ℝ) ^ ((6 * (i : ℝ)) / ((x.length : ℝ) - 1)) * x.getD i 0 ^ 2

/-- Embedding of DelayedSphere.__call__: the sum of squared coordinates,
float(np.sum(x ** 2)). -/
def DelayedSphere.call (x : List ℝ) : ℝ :=
  (x.map (fun w => w ^ 2)).sum

/-- Embedding of DelayedSphere.get_postponing_delay. In the source the
vector is args[0], the first positional argument of the evaluation call;
the embedding takes that vector directly. -/
noncomputable def DelayedSphere.get_postponing_delay (x : List ℝ) : ℝ :=
  if x.headI ≠ 0 then |1 / x.headI| / 1000 else 0

/-- Embedding of deceptiveillcond. When x[0] is nonzero the value is
max(|arctan(x[1] / x[0])|, sqrt(x[0] ^ 2 + x[1] ^ 2), 1 if x[0] > 0
else 0); when x[0] is zero the code returns float("inf"), modelled as the
top element of EReal. -/
noncomputable def deceptiveillcond (x : List ℝ) : EReal :=
  if x.headI ≠ 0 then
    ((max (max |Real.arctan (x.tail.headI / x.headI)|
          (Real.sqrt (x.headI ^ 2 + x.tail.headI ^ 2)))
        (if 0 < x.headI then 1 else 0) : ℝ) : EReal)
  else ⊤

/-- Embedding of deceptivepath: zero at distance zero, the flat penalty 1
when the angle misses cos(1 / distance) by more than 0.1, and the
distance otherwise. -/
noncomputable def deceptivepath (x : List ℝ) : ℝ :=
  let distance := Real.sqrt (x.headI ^ 2 + x.tail.headI ^ 2)
  if distance = 0 then 0
  else
    let angle :=
      if x.tail.headI ≠ 0 then Real.arctan (x.headI / x.tail.headI)
      else Real.pi / 2
    let invdistance := if 0 < distance then 1 / distance else 0
    if 0.1 < |Real.cos invdistance - angle| then 1 else distance

/-- Embedding of deceptivemultimodal: as deceptivepath except that
1 / distance is truncated to an integer by int(), which on the positive
value 1 / distance is the floor. -/
noncomputable def deceptivemultimodal (x : List ℝ) : ℝ :=
  let distance := Real.sqrt (x.headI ^ 2 + x.tail.headI ^ 2)
  if distance = 0 then 0
  else
    let angle :=
      if x.tail.headI ≠ 0 then Real.arctan (x.headI / x.tail.headI)
      else Real.pi / 2
    let invdistance : ℝ :=
      if 0 < distance then ((⌊1 / distance⌋ : ℤ) : ℝ) else 0
    if 0.1 < |Real.cos invdistance - angle| then 1 else distance

/-- Modelled from the spec: the Registry class lives in
src/nevergrad/common/decorators.py, which is not part of the sources
under verification; per the spec the registry records one unique name per
registration in registration order. This list is the sequence of names
registered by corefuncs.py, read off from its registration calls in
source order. The functions ackley and schwefel_1_2 carry no registration
call and therefore do not appear. -/
def registryNames : List String :=
  ["DelayedSphere", "sphere", "sphere1", "sphere2", "sphere4",
   "maxdeceptive", "sumdeceptive", "altcigar", "cigar", "altellipsoid",
   "ellipsoid", "rastrigin", "hm", "rosenbrock", "griewank",
   "deceptiveillcond", "deceptivepath", "deceptivemultimodal", "lunacek",
   "hardonemax", "hardjump", "hardleadingones", "hardonemax5",
   "hardjump5", "hardleadingones5", "onemax", "jump", "leadingones",
   "onemax5", "jump5", "leadingones5", "genzcornerpeak",
   "minusgenzcornerpeak", "genzgaussianpeakintegral",
   "minusgenzgaussianpeakintegral", "slope", "linear", "st0", "st1",
   "st10", "st100"]

/-- Modelled from the spec: get(name) returns the registered entry and
fails with NotFound for an unknown name. -/
def registryGet (name : String) : Except String String :=
  if name ∈ registryNames then Except.ok name else Except.error "NotFound"

end Corefuncs

namespace Corefuncs

/-- C2 counterexample: the three reference values of the claim do not all
hold; the code yields _leadingones [1,0,0,0] = 3, not 1. -/
theorem leadingones_claim_false :
    ¬ (_leadingones [0, 1, 1, 1] = 4 ∧ _leadingones [1, 1, 1, 1] = 0 ∧
       _leadingones [1, 0, 0, 0] = 1) := by
  decide

/-- C2 (amended): the discrete leadingones core satisfies
_leadingones [0,1,1,1] = 4, _leadingones [1,1,1,1] = 0 and
_leadingones [1,0,0,0] = 3 (length minus index of first non-one). -/
theorem leadingones_reference_values :
    _leadingones [0, 1, 1, 1] = 4 ∧ _leadingones [1, 1, 1, 1] = 0 ∧
      _leadingones [1, 0, 0, 0] = 3 := by
  decide

/-- C6 counterexample: at x = [1] the code returns 0 while the formula of
the claim, len(x) minus the count of coordinates different from 1,
returns 1. -/
theorem onemax_claim_false :
    _onemax [1] ≠ onemaxClaim [1] := by
  decide

/-- C6 (amended): _onemax returns the number of coordinates not equal to
category 1, that is len(x) minus the count of coordinates EQUAL to 1. -/
theorem onemax_counts_non_ones (x : List ℤ) :
    _onemax x = x.countP (fun w => w ≠ 1) := by
  induction x with
  | nil => rfl
  | cons w rest ih =>
      have hle : rest.count 1 ≤ rest.length := List.count_le_length 1 rest
      by_cases hw : w = 1
      · simp [_onemax, List.count_cons, List.countP_cons, hw] at *
        omega
      · simp [_onemax, List.count_cons, List.countP_cons, hw] at *
        omega

/-- C1: the registered function hm evaluated at the minimum-valid-length
vector [0] yields NaN: 1.0 / 0.0 is infinite, its cosine is NaN, and NaN
propagates through the dot product. This contradicts the claim that no
registered function ever returns NaN on a minimum-valid-length vector. -/
theorem hm_zero_nan : hm [0] = FpVal.nan := by
  simp [hm, fpOneDiv, fpCos, fpAdd, fpMul]

/-- C8: sphere vanishes on the zero vector of every dimension, and the
translated variants agree with sphere under the corresponding shift:
sphere x = sphere1 (x + 1) = sphere2 (x + 2) = sphere4 (x + 4). -/
theorem sphere_translations :
    (∀ d : ℕ, sphere (List.replicate d 0) = 0) ∧
    ∀ x : List ℝ,
      sphere x = sphere1 (x.map (fun w => w + 1)) ∧
        sphere x = sphere2 (x.map (fun w => w + 2)) ∧
        sphere x = sphere4 (x.map (fun w => w + 4)) := by
  constructor
  · intro d
    simp [sphere, List.map_replicate]
  · intro x
    refine ⟨?_, ?_, ?_⟩ <;>
      simp [sphere1, sphere2, sphere4, sphere, List.map_map, Function.comp_def,
        add_sub_cancel_right]

/-- C5 counterexample: at x = [1, 0] the code yields cigar [1, 0] = 1
while the formula of the claim, with the 10 ^ 6 weight on the
distinguished axis, yields 1000000. -/
theorem cigar_claim_false : cigar [1, 0] ≠ cigarClaim [1, 0] := by
  norm_num [cigar, cigarClaim, sphere]

/-- C5 (amended): cigar is the distinguished first axis squared plus
10 ^ 6 times the sphere of the remaining coordinates; altcigar is the
same with the order of variables reversed, the last coordinate being
distinguished, so that altcigar on the reversed vector equals cigar. -/
theorem cigar_altcigar_form (x : List ℝ) (h : 2 ≤ x.length) :
    cigar x = x.headI ^ 2 + 1000000 * sphere x.tail ∧
      altcigar x = x.getLastD 0 ^ 2 + 1000000 * sphere x.dropLast ∧
      altcigar x.reverse = cigar x := by
  refine ⟨rfl, rfl, ?_⟩
  match x with
  | a :: y =>
    simp [altcigar, cigar, sphere, List.reverse_cons, List.getLastD_concat,
      List.dropLast_concat, List.map_reverse, List.sum_reverse]

/-- C5 witness: the amended statement instantiated at the concrete vector
[1, 2]. -/
theorem cigar_altcigar_form_w :
    2 ≤ ([1, 2] : List ℝ).length ∧
      (cigar [1, 2] = ([1, 2] : List ℝ).headI ^ 2 +
          1000000 * sphere ([1, 2] : List ℝ).tail ∧
        altcigar [1, 2] = ([1, 2] : List ℝ).getLastD 0 ^ 2 +
          1000000 * sphere ([1, 2] : List ℝ).dropLast ∧
        altcigar ([1, 2] : List ℝ).reverse = cigar [1, 2]) :=
  ⟨by norm_num, cigar_altcigar_form [1, 2] (by norm_num)⟩

/-- Helper: every entry read from a replicate of zeros is zero, whatever
the index. -/
theorem getD_replicate_zero (n i : ℕ) :
    (List.replicate n (0 : ℝ)).getD i 0 = 0 := by
  induction n generalizing i with
  | zero => simp
  | succ n ih => cases i <;> simp [List.replicate_succ, ih]

/-- C9: in every dimension d at least 2, ellipsoid at the first standard
basis vector equals 1 and at the last standard basis vector equals
10 ^ 6, since the per-axis weights 10 ^ linspace(0, 6, d) start at
10 ^ 0 and end at 10 ^ 6. -/
theorem ellipsoid_basis (d : ℕ) (h : 2 ≤ d) :
    ellipsoid (1 :: List.replicate (d - 1) 0) = 1 ∧
      ellipsoid (List.replicate (d - 1) 0 ++ [1]) = 10 ^ 6 := by
  have hd1 : (1 :: List.replicate (d - 1) (0 : ℝ)).length = d := by
    simp
    omega
  have hd2 : (List.replicate (d - 1) (0 : ℝ) ++ [1]).length = d := by
    simp
    omega
  constructor
  · unfold ellipsoid
    rw [hd1]
    rw [Finset.sum_eq_single_of_mem 0 (Finset.mem_range.mpr (by omega))]
    · simp [Real.rpow_zero]
    · intro b _ hb
      match b, hb with
      | Nat.succ j, _ => simp [getD_replicate_zero]
  · unfold ellipsoid
    rw [hd2]
    rw [Finset.sum_eq_single_of_mem (d - 1) (Finset.mem_range.mpr (by omega))]
    · have hg : (List.replicate (d - 1) (0 : ℝ) ++ [1]).getD (d - 1) 0 = 1 := by
        rw [List.getD_append_right _ _ _ _ (by simp)]
        simp
      rw [hg]
      have hd2le : (2 : ℝ) ≤ (d : ℝ) := by exact_mod_cast h
      have hne : (d : ℝ) - 1 ≠ 0 := by
        intro hz
        linarith
      have hcast : ((d - 1 : ℕ) : ℝ) = (d : ℝ) - 1 := by
        have h1 : (1 : ℕ) ≤ d := by omega
        push_cast [h1]
        ring
      rw [hcast, mul_div_assoc, div_self hne, mul_one]
      rw [show (6 : ℝ) = ((6 : ℕ) : ℝ) by norm_num, Real.rpow_natCast]
      norm_num
    · intro b hb hbne
      have hblt : b < d - 1 := by
        have := Finset.mem_range.mp hb
        omega
      rw [List.getD_append _ _ _ _ (by simpa using hblt)]
      simp [getD_replicate_zero]

/-- C9 witness: the basis-vector values instantiated at dimension 2. -/
theorem ellipsoid_basis_w :
    2 ≤ 2 ∧
      (ellipsoid (1 :: List.replicate (2 - 1) 0) = 1 ∧
        ellipsoid (List.replicate (2 - 1) 0 ++ [1]) = 10 ^ 6) :=
  ⟨by norm_num, ellipsoid_basis 2 (by norm_num)⟩

/-- C7: the reported delay of DelayedSphere follows the reference law,
is a non-negative real, equals 1.0 at the vector [0.001, 0] and 0 at the
vector [0, 0]. -/
theorem delayed_sphere_delay_spec :
    (∀ x : List ℝ, DelayedSphere.get_postponing_delay x =
        if x.headI = 0 then 0 else |1 / x.headI| / 1000) ∧
      (∀ x : List ℝ, 0 ≤ DelayedSphere.get_postponing_delay x) ∧
      DelayedSphere.get_postponing_delay [0.001, 0] = 1 ∧
      DelayedSphere.get_postponing_delay [0, 0] = 0 := by
  refine ⟨fun x => ?_, fun x => ?_, ?_, ?_⟩
  · by_cases hx : x.headI = 0 <;>
      simp [DelayedSphere.get_postponing_delay, hx]
  · by_cases hx : x.headI = 0
    · simp [DelayedSphere.get_postponing_delay, hx]
    · simp [DelayedSphere.get_postponing_delay, hx]
      positivity
  · norm_num [DelayedSphere.get_postponing_delay]
  · norm_num [DelayedSphere.get_postponing_delay]

/-- C3 counterexample: the three deceptive functions do not all return 0
at the zero vector [0, 0]; deceptiveillcond hits its x[0] == 0 branch
there and returns positive infinity. -/
theorem deceptive_zero_claim_false :
    ¬ (deceptiveillcond [0, 0] = 0 ∧ deceptivepath [0, 0] = 0 ∧
        deceptivemultimodal [0, 0] = 0) := by
  intro hc
  have h1 : deceptiveillcond [0, 0] = ⊤ := by
    simp [deceptiveillcond]
  rw [h1] at hc
  exact EReal.top_ne_zero hc.1

/-- C3 (amended): at the zero vector [0, 0], deceptivepath and
deceptivemultimodal return 0 through the distance == 0 short-circuit,
while deceptiveillcond returns positive infinity through its x[0] == 0
branch. -/
theorem deceptive_zero_values :
    deceptivepath [0, 0] = 0 ∧ deceptivemultimodal [0, 0] = 0 ∧
      deceptiveillcond [0, 0] = ⊤ := by
  refine ⟨?_, ?_, ?_⟩ <;>
    norm_num [deceptivepath, deceptivemultimodal, deceptiveillcond,
      Real.sqrt_zero]

/-- C4: deceptiveillcond returns positive infinity on every vector of
length at least 2 whose first coordinate is zero, whatever the second
coordinate. -/
theorem deceptiveillcond_inf_on_zero_first (x : List ℝ) (_hlen : 2 ≤ x.length)
    (h0 : x.headI = 0) : deceptiveillcond x = ⊤ := by
  simp [deceptiveillcond, h0]

/-- C4 witness: the statement instantiated at the concrete vector [0, 5]. -/
theorem deceptiveillcond_inf_on_zero_first_w :
    2 ≤ ([0, 5] : List ℝ).length ∧ ([0, 5] : List ℝ).headI = 0 ∧
      deceptiveillcond [0, 5] = ⊤ :=
  ⟨by norm_num, rfl, deceptiveillcond_inf_on_zero_first [0, 5] (by norm_num) rfl⟩

/-- C10: the registry built by corefuncs.py registers neither ackley nor
schwefel_1_2, so the name sequence omits both and lookup fails with
NotFound for each. -/
theorem registry_excludes_unregistered :
    "ackley" ∉ registryNames ∧ "schwefel_1_2" ∉ registryNames ∧
      registryGet "ackley" = Except.error "NotFound" ∧
      registryGet "schwefel_1_2" = Except.error "NotFound" := by
  exact ⟨by decide, by decide, rfl, rfl⟩

end Corefuncs
